import Mathlib

/-!
Shallow embedding of `lmi/scripts/_metacommand/__init__.py` from
openlmi-scripts: the bootstrap and dispatch layer of the `lmi`
meta-command.  Pure functions of the source become Lean functions;
the mutable `MetaCommand` instance state becomes explicit state
passing; Python exceptions become an `Except`-style outcome type.
-/

namespace Metacommand

/-- Python exceptions relevant to this module.  `lmiError` stands for
`lmi.scripts.common.errors.LmiError`; the rest are builtins. -/
inductive PyExc where
  | attributeError (msg : String)
  | osError (msg : String)
  | ioError (msg : String)
  | keyError (msg : String)
  | lmiError (msg : String)
  | otherError (msg : String)
  deriving DecidableEq, Repr

/-- `isinstance(exc, errors.LmiError)`. -/
def PyExc.isLmiError : PyExc → Bool
  | .lmiError _ => true
  | _ => false

/-- `str(exc)`: the message carried by the exception. -/
def PyExc.msg : PyExc → String
  | .attributeError m => m
  | .osError m => m
  | .ioError m => m
  | .keyError m => m
  | .lmiError m => m
  | .otherError m => m

/-- Characters stripped by Python `str.strip()` with no argument
(ASCII whitespace: space, tab, newline, carriage return, vertical
tab, form feed). -/
def pyIsSpace (c : Char) : Bool :=
  c = ' ' || c = '\t' || c = '\n' || c = '\x0d' || c = '\x0b' || c = '\x0c'

/-- Python `str.strip()`: drop leading and trailing whitespace. -/
def pyStrip (s : String) : String :=
  String.mk (((s.toList.dropWhile pyIsSpace).reverse.dropWhile pyIsSpace).reverse)

/-- A Python file object opened for read, reduced to what this module
observes of it: the list of lines `readlines()` returns. -/
structure PyFile where
  lines : List String
  deriving DecidableEq, Repr

/-- A Python value that may be handed to `parse_hosts_file`: the code
passes either a `str` (the path, as actually happens at the call site
in `MetaCommand.session`) or a file object (as the docstring of
`parse_hosts_file` demands). -/
inductive PyValue where
  | str (s : String)
  | file (f : PyFile)
  deriving DecidableEq, Repr

/-- `hosts_file.readlines()`: a file object yields its lines; a `str`
has no `readlines` attribute, so the call raises `AttributeError`. -/
def readlines : PyValue → Except PyExc (List String)
  | .file f => .ok f.lines
  | .str _ => .error (.attributeError "'str' object has no attribute 'readlines'")

/-- The loop body of `parse_hosts_file`: starting from the accumulator
`res`, append `line.strip()` for each remaining line. -/
def parse_hosts_file_loop : List String → List String → List String
  | res, [] => res
  | res, line :: rest => parse_hosts_file_loop (res ++ [pyStrip line]) rest

/-- `parse_hosts_file(hosts_file)`: iterate over `hosts_file.readlines()`,
stripping each line and appending it to `res`. -/
def parse_hosts_file (hosts_file : PyValue) : Except PyExc (List String) := do
  let ls ← readlines hosts_file
  return parse_hosts_file_loop [] ls

/-- The docopt options the `session` property reads, with their docopt
types: `--host` is a repeatable positional-value option (a list of
strings), `--hosts-file` and `--user` are optional single-value options
(`None` when absent). -/
structure Options where
  host : List String
  hostsFile : Option String
  user : Option String
  deriving DecidableEq, Repr

/-- Python truthiness of a docopt optional-string value: `None` and the
empty string are falsy. -/
def strTruthy : Option String → Bool
  | Option.none => false
  | some s => decide (s ≠ "")

/-- Python truthiness of a list value: empty lists are falsy. -/
def listTruthy (l : List String) : Bool :=
  decide (l ≠ [])

/-- What `open(path, 'rt')` does for a given path. -/
inductive OpenResult where
  | ok (f : PyFile)
  | osErr (msg : String)
  | ioErr (msg : String)
  deriving DecidableEq, Repr

/-- The file system seen by `open`. -/
structure FileSystem where
  openFile : String → OpenResult

/-- The `Session(self, hosts, credentials)` constructor call, reduced to
the arguments this module computes: the host list and the credentials
dictionary (`None`, or a map from each host to the `(user, '')` pair). -/
structure Session where
  hosts : List String
  credentials : Option (List (String × (String × String)))
  deriving DecidableEq, Repr

/-- Result of evaluating the body of the `session` property:
`exit code msg` models `LOG().critical(msg); sys.exit(code)`,
`raised e` models an uncaught exception propagating out, and
`session s` means a `Session` was constructed with arguments `s`. -/
inductive SessionOutcome where
  | exit (code : Nat) (msg : String)
  | raised (e : PyExc)
  | session (s : Session)
  deriving DecidableEq, Repr

/-- The critical message logged when neither host option is given. -/
def missingHostsMsg : String :=
  "missing one of (--host | --hosts-file) arguments"

/-- The critical message logged when the hosts file cannot be read:
`'could not read hosts file \x22%s\x22: %s' % (hosts_file, err)`. -/
def couldNotReadMsg (path err : String) : String :=
  "could not read hosts file \x22" ++ path ++ "\x22: " ++ err

/-- The construction logic of the `session` property (the branch taken
when `self._session is None`).  Faithful to the source: after `open`
succeeds, `parse_hosts_file` is applied to `self._options['--hosts-file']`
— the path string — not to the opened file object; only `OSError` and
`IOError` are caught by the surrounding handler. -/
def sessionCompute (fs : FileSystem) (opts : Options) : SessionOutcome :=
  if ¬ listTruthy opts.host ∧ ¬ strTruthy opts.hostsFile then
    .exit 1 missingHostsMsg
  else
    let fromFile : Except SessionOutcome (List String) :=
      if strTruthy opts.hostsFile then
        let path := opts.hostsFile.getD ""
        match fs.openFile path with
        | .osErr err => .error (.exit 1 (couldNotReadMsg path err))
        | .ioErr err => .error (.exit 1 (couldNotReadMsg path err))
        | .ok _f =>
            match parse_hosts_file (.str path) with
            | .ok hs => .ok hs
            | .error e => .error (.raised e)
      else .ok []
    match fromFile with
    | .error out => out
    | .ok fileHosts =>
        let hosts := fileHosts ++ opts.host
        let credentials :=
          if strTruthy opts.user then
            some (hosts.map fun h => (h, (opts.user.getD "", "")))
          else Option.none
        .session ⟨hosts, credentials⟩

/-- Modelled from the spec: the external `Configuration` singleton
(`lmi.scripts.common.configuration`, not under the provided source),
reduced to the attributes this module reads and writes — the `trace`
flag, the numeric `verbosity`, the configured logging level name, the
`[Log]` options read through `get_safe`, and the user configuration
file path the singleton was created with. -/
structure Config where
  trace : Bool
  verbosity : Int
  logging_level : String
  logOutputFile : Option String
  logFileFormat : Option String
  logConsoleFormat : Option String
  userConfigFilePath : Option String
  deriving DecidableEq, Repr

/-- Modelled from the spec: `Configuration.OUTPUT_SILENT`. -/
def OUTPUT_SILENT : Int := -1

/-- Modelled from the spec: `Configuration.OUTPUT_WARNING`. -/
def OUTPUT_WARNING : Int := 0

/-- Modelled from the spec: `Configuration.OUTPUT_INFO`. -/
def OUTPUT_INFO : Int := 1

/-- Modelled from the spec: `Configuration.OUTPUT_DEBUG`. -/
def OUTPUT_DEBUG : Int := 2

/-- Modelled from the spec: the defaults a freshly created
`Configuration` singleton carries before `setup` touches it. -/
def Configuration.defaults : Config :=
  { trace := false
    verbosity := OUTPUT_WARNING
    logging_level := "ERROR"
    logOutputFile := Option.none
    logFileFormat := some "%(asctime)s:%(levelname)s:%(message)s"
    logConsoleFormat := some "%(levelname)s: %(message)s"
    userConfigFilePath := Option.none }

/-- What the `except` clause of `MetaCommand.run` logs:
`LOG().error(exc)` records only the message, while
`LOG().exception(\x22fatal\x22)` records the full traceback. -/
inductive LogAction where
  | logError (msg : String)
  | logException (msg : String)
  deriving DecidableEq, Repr

/-- `trace = True if self.config is None else self.config.trace`:
a still-uninitialised configuration counts as tracing enabled. -/
def effectiveTrace : Option Config → Bool
  | Option.none => true
  | some c => c.trace

/-- `MetaCommand.run(argv)` after `TopLevelCommand` has been invoked:
`cmdResult` is what `cmd.run(argv)` does (returns a value or raises).
Returns the exit code together with what was logged. -/
def MetaCommand.run (config : Option Config) (cmdResult : Except PyExc Int) :
    Int × Option LogAction :=
  match cmdResult with
  | .ok result => (result, Option.none)
  | .error exc =>
      if exc.isLmiError || !(effectiveTrace config) then
        (1, some (.logError exc.msg))
      else
        (1, some (.logException "fatal"))

/-- Modelled from the spec: the external `CommandManager` collaborator,
a registry/dispatch table for named subcommands; `add_command(name, cls)`
registers a command class under a name. -/
structure CommandManager where
  commands : List String
  deriving DecidableEq, Repr

/-- Modelled from the spec: `CommandManager.add_command` registers a
name in the dispatch table. -/
def CommandManager.add_command (m : CommandManager) (name : String) :
    CommandManager :=
  ⟨m.commands ++ [name]⟩

/-- The lazily-created slots of a `MetaCommand` instance:
`self._command_manager` and `self._session`, both `None` after
`__init__`. -/
structure MetaState where
  commandManagerSlot : Option CommandManager
  sessionSlot : Option Session
  deriving DecidableEq, Repr

/-- `MetaCommand.__init__`: both lazy slots start out as `None`. -/
def MetaCommand.init : MetaState :=
  ⟨Option.none, Option.none⟩

/-- The `command_manager` property: created on first access (with the
`help` command registered), returned from the slot afterwards. -/
def command_manager (st : MetaState) : CommandManager × MetaState :=
  match st.commandManagerSlot with
  | some m => (m, st)
  | Option.none =>
      let m := CommandManager.add_command ⟨[]⟩ "help"
      (m, { st with commandManagerSlot := some m })

/-- The `session` property with its memoisation: the body
(`sessionCompute`) runs only while `self._session is None`; a
constructed `Session` is stored in the slot and returned on every
later access. -/
def sessionProp (fs : FileSystem) (opts : Options) (st : MetaState) :
    SessionOutcome × MetaState :=
  match st.sessionSlot with
  | some s => (.session s, st)
  | Option.none =>
      match sessionCompute fs opts with
      | .session s => (.session s, { st with sessionSlot := some s })
      | out => (out, st)

/-- Steps of one meta-command invocation, for the ordering argument. -/
inductive Event where
  | readCliFlags
  | populateConfig
  | attachLogHandlers
  | parseHostsFromFile
  | constructSession
  | runSubcommand
  deriving DecidableEq, Repr

/-- Order of effects inside `MetaCommand.setup`: the configuration
singleton is populated first, then `self._configure_logging()` runs. -/
def setupEvents : List Event :=
  [.populateConfig, .attachLogHandlers]

/-- Order of effects inside the body of the `session` property: the
hosts file, when given, is read before `Session(...)` is constructed. -/
def sessionEvents (hostsFileGiven : Bool) : List Event :=
  (if hostsFileGiven then [.parseHostsFromFile] else []) ++ [.constructSession]

/-- Modelled from the spec: `TopLevelCommand.run` (whose source is not
under the provided tree) reads the global CLI flags, calls
`MetaCommand.setup`, and hands control to the selected subcommand,
which obtains the session through the `session` property before it
executes.  The trace of one invocation. -/
def topLevelRunEvents (hostsFileGiven : Bool) : List Event :=
  [.readCliFlags] ++ setupEvents ++ sessionEvents hostsFileGiven ++ [.runSubcommand]

/-- A value in a docopt options dictionary: `None`, a flag, a counted
flag, a string option, or a repeatable option. -/
inductive OptVal where
  | none
  | bool (b : Bool)
  | num (n : Nat)
  | str (s : String)
  | list (l : List String)
  deriving DecidableEq, Repr

/-- Python truthiness of a docopt value. -/
def OptVal.truthy : OptVal → Bool
  | .none => false
  | .bool b => b
  | .num n => decide (n ≠ 0)
  | .str s => decide (s ≠ "")
  | .list l => decide (l ≠ [])

/-- The count held by a `-v`-style docopt value (0 otherwise). -/
def OptVal.count : OptVal → Nat
  | .num n => n
  | _ => 0

/-- The string held by a path-valued docopt value (`None` otherwise). -/
def OptVal.pathStr : OptVal → Option String
  | .str s => some s
  | _ => Option.none

/-- A docopt options dictionary, as an association list. -/
abbrev OptDict : Type :=
  List (String × OptVal)

/-- `options[key]` for a present key, `None` view otherwise. -/
def OptDict.get : OptDict → String → Option OptVal
  | [], _ => Option.none
  | p :: t, k => if p.1 = k then some p.2 else OptDict.get t k

/-- `del options[key]`. -/
def OptDict.del : OptDict → String → OptDict
  | [], _ => []
  | p :: t, k => if p.1 = k then OptDict.del t k else p :: OptDict.del t k

/-- `options.pop(key, default)`: the value (or default) together with
the dictionary without the key. -/
def OptDict.pop (d : OptDict) (k : String) (dflt : OptVal) : OptVal × OptDict :=
  ((d.get k).getD dflt, d.del k)

/-- Modelled from the spec: `Configuration.get_instance(**kwargs)`
returns the global singleton, creating it — with the given user
configuration file path — only when it does not exist yet. -/
def Configuration.get_instance (existing : Option Config)
    (userPath : Option String) : Config :=
  match existing with
  | some c => c
  | Option.none => { Configuration.defaults with userConfigFilePath := userPath }

/-- The part of `MetaCommand.setup` after the `conf_kwargs` block:
obtain the singleton, set `trace` from the popped `--trace`, update
`verbosity` from `--quiet` and `-v`, and delete those two keys from the
remaining options. -/
def setupTail (existing : Option Config) (cfPath : Option String)
    (d1 : OptDict) : Config × OptDict :=
  let config := Configuration.get_instance existing cfPath
  let p2 := d1.pop "--trace" (.bool false)
  let config := { config with trace := OptVal.truthy p2.1 }
  let options2 := p2.2
  let vVal := (options2.get "-v").getD .none
  let config :=
    if ((options2.get "--quiet").getD .none).truthy then
      { config with verbosity := OUTPUT_SILENT }
    else if vVal.truthy && decide (0 < vVal.count) then
      { config with verbosity := (vVal.count : Int) }
    else config
  (config, (options2.del "--quiet").del "-v")

/-- `MetaCommand.setup(options)`: initialise the global `Configuration`
from the docopt dictionary and keep the remaining options.  Returns the
resulting config together with the stored `self._options`.
(`self._configure_logging()`, called between the verbosity update and
the `del` statements, only reads the config and is modelled
separately.) -/
def setup (existing : Option Config) (options : OptDict) : Config × OptDict :=
  if ((options.get "--config-file").getD .none).truthy then
    let p := options.pop "--config-file" .none
    setupTail existing (OptVal.pathStr p.1) p.2
  else
    setupTail existing Option.none options

/-- A command manager with the `help` command registered, as the
`command_manager` property stores it. -/
def witnessManager : CommandManager :=
  ⟨["help"]⟩

/-- A session as stored by a successful first access to `session`. -/
def witnessSession : Session :=
  ⟨["host1.example.com"], Option.none⟩

/-- A `MetaCommand` instance state with both lazy slots filled. -/
def witnessState : MetaState :=
  ⟨some witnessManager, some witnessSession⟩

/-- Options naming a single `--host`. -/
def witnessOpts : Options :=
  ⟨["host1.example.com"], Option.none, Option.none⟩

/-- Python `logging.DEBUG`. -/
def logDEBUG : Nat := 10

/-- Python `logging.INFO`. -/
def logINFO : Nat := 20

/-- Python `logging.WARNING`. -/
def logWARNING : Nat := 30

/-- Python `logging.ERROR`. -/
def logERROR : Nat := 40

/-- Python `logging.CRITICAL`. -/
def logCRITICAL : Nat := 50

/-- ASCII upcasing of one character, as Python `str.upper()` does for
the level names at hand. -/
def pyCharUpper (c : Char) : Char :=
  if 97 ≤ c.toNat && c.toNat ≤ 122 then Char.ofNat (c.toNat - 32) else c

/-- Python `str.upper()` on ASCII strings. -/
def pyUpper (s : String) : String :=
  String.mk (s.toList.map pyCharUpper)

/-- `getattr(logging, name)` restricted to level names; `none` models
the `AttributeError` Python raises for an unknown attribute (which the
source's `except KeyError` clause would not catch). -/
def loggingLevelAttr : String → Option Nat
  | "NOTSET" => some 0
  | "DEBUG" => some logDEBUG
  | "INFO" => some logINFO
  | "WARNING" => some logWARNING
  | "WARN" => some logWARNING
  | "ERROR" => some logERROR
  | "CRITICAL" => some logCRITICAL
  | "FATAL" => some logCRITICAL
  | _ => Option.none

/-- Where a `StreamHandler` writes; `MetaCommand.__init__` sets
`self.stderr = sys.stderr`. -/
inductive StreamDest where
  | stderr
  | stdout
  deriving DecidableEq, Repr

/-- A handler attached to the root logger, with its level and the
format of its formatter. -/
inductive Handler where
  | null
  | file (path : String) (level : Nat) (format : Option String)
  | stream (dest : StreamDest) (level : Nat) (format : Option String)
  deriving DecidableEq, Repr

/-- `isinstance(h, logging.NullHandler)`. -/
def Handler.isNull : Handler → Bool
  | .null => true
  | _ => false

/-- The root logger: its handler list and its level. -/
structure RootLogger where
  handlers : List Handler
  level : Nat
  deriving DecidableEq, Repr

/-- Modelled from the spec: `Configuration.silent` — whether the
verbosity is at most `OUTPUT_SILENT`. -/
def Config.silent (c : Config) : Bool :=
  decide (c.verbosity ≤ OUTPUT_SILENT)

/-- The console-level dictionary of `_configure_logging`:
`{SILENT: ERROR, WARNING: WARNING, INFO: INFO, DEBUG: DEBUG}`
looked up at `config.verbosity` with a default. -/
def consoleLevelFor (verbosity : Int) (dflt : Nat) : Nat :=
  if verbosity = OUTPUT_SILENT then logERROR
  else if verbosity = OUTPUT_WARNING then logWARNING
  else if verbosity = OUTPUT_INFO then logINFO
  else if verbosity = OUTPUT_DEBUG then logDEBUG
  else dflt

/-- `MetaCommand._configure_logging`: capture the installed
`NullHandler`s, resolve the configured level name, attach a
`FileHandler` when `[Log] OutputFile` is set, attach the console
`StreamHandler` on stderr, set the root level, remove the captured
`NullHandler`s, and replace `self.stdout` when the configuration is
silent (the returned flag).  `none` models the uncaught
`AttributeError` for an unknown level name. -/
def configure_logging (cfg : Config) (root : RootLogger) :
    Option (RootLogger × Bool) :=
  let null_handlers := root.handlers.filter Handler.isNull
  match loggingLevelAttr (pyUpper cfg.logging_level) with
  | Option.none => Option.none
  | some logging_level =>
      let handlers1 :=
        match cfg.logOutputFile with
        | some lf => root.handlers ++ [Handler.file lf 0 cfg.logFileFormat]
        | Option.none => root.handlers
      let console_level_default :=
        if strTruthy cfg.logOutputFile then logERROR else logging_level
      let console_level := consoleLevelFor cfg.verbosity console_level_default
      let handlers2 :=
        handlers1 ++ [Handler.stream .stderr console_level cfg.logConsoleFormat]
      let level := min logging_level console_level
      let final := null_handlers.foldl (fun hs h => hs.erase h) handlers2
      some (⟨final, level⟩, cfg.silent)

/-- The root logger as it stands when `_configure_logging` runs: just
the module-level `NullHandler`, at the default `WARNING` level. -/
def rootLoggerStart : RootLogger :=
  ⟨[Handler.null], logWARNING⟩

/-- The root logger after `_configure_logging` under the default
configuration: one console handler at `WARNING` (the default verbosity
maps to it), root level `min ERROR WARNING = WARNING`. -/
def rootLoggerAfter : RootLogger :=
  ⟨[Handler.stream .stderr logWARNING Configuration.defaults.logConsoleFormat],
    logWARNING⟩

/-- A concrete docopt dictionary as the top-level command hands it to
`setup`. -/
def docoptExample : OptDict :=
  [("--config-file", OptVal.str "/etc/lmi/custom.conf"),
   ("--trace", OptVal.bool true),
   ("--quiet", OptVal.bool false),
   ("-v", OptVal.num 2),
   ("--host", OptVal.list []),
   ("--hosts-file", OptVal.none),
   ("--user", OptVal.none)]

/-- A file system on which `/missing/hosts` cannot be opened. -/
def fsUnreadable : FileSystem :=
  ⟨fun _ => .ioErr "No such file or directory"⟩

/-- A file system holding a readable hosts file. -/
def fsReadable : FileSystem :=
  ⟨fun p => if p = "/etc/lmi/hostlist" then .ok ⟨["alpha.example.com\n"]⟩
            else .ioErr "No such file or directory"⟩

/-- A file system holding a hosts file with blank and whitespace-only
lines. -/
def fsBlankLines : FileSystem :=
  ⟨fun p => if p = "/etc/lmi/blanks" then .ok ⟨["alpha\n", "\n", "   \n"]⟩
            else .ioErr "No such file or directory"⟩

end Metacommand

open Metacommand

theorem parse_hosts_file_loop_eq (res ls : List String) :
    parse_hosts_file_loop res ls = res ++ ls.map pyStrip := by
  induction ls generalizing res with
  | nil => simp [parse_hosts_file_loop]
  | cons line rest ih =>
      simp [parse_hosts_file_loop, ih]

theorem OptDict.get_del_self (d : OptDict) (k : String) :
    (d.del k).get k = Option.none := by
  induction d with
  | nil => rfl
  | cons p t ih =>
      by_cases h : p.1 = k
      · simpa [OptDict.del, h] using ih
      · simpa [OptDict.del, OptDict.get, h] using ih

theorem OptDict.get_del_ne (d : OptDict) (k k' : String) (h : k ≠ k') :
    (d.del k').get k = d.get k := by
  induction d with
  | nil => rfl
  | cons p t ih =>
      by_cases hp : p.1 = k'
      · simpa [OptDict.del, OptDict.get, hp, Ne.symm h] using ih
      · by_cases hpk : p.1 = k
        · simp [OptDict.del, OptDict.get, hp, hpk, h]
        · simpa [OptDict.del, OptDict.get, hp, hpk] using ih

/-- C2: for every file object, `parse_hosts_file` returns the file's
lines in their original order, each stripped of leading and trailing
whitespace — one hostname per line. -/
theorem parse_hosts_file_strips_lines_in_order (f : PyFile) :
    parse_hosts_file (.file f) = .ok (f.lines.map pyStrip) := by
  simp [parse_hosts_file, readlines, Except.bind, parse_hosts_file_loop_eq]

/-- C4: with neither `--host` nor `--hosts-file`, the `session` property
logs a critical message and exits with status 1; when the hosts file
cannot be opened (`OSError` or `IOError`), it logs a critical message
naming the file and exits with status 1; in both cases no `Session` is
constructed. -/
theorem session_exits_without_hosts (fs : FileSystem) (opts : Options)
    (path err : String) :
    (¬ listTruthy opts.host ∧ ¬ strTruthy opts.hostsFile →
        sessionCompute fs opts = .exit 1 missingHostsMsg)
    ∧ (opts.hostsFile = some path → strTruthy (some path) →
        (fs.openFile path = .osErr err ∨ fs.openFile path = .ioErr err) →
        sessionCompute fs opts = .exit 1 (couldNotReadMsg path err))
    ∧ ((¬ listTruthy opts.host ∧ ¬ strTruthy opts.hostsFile) ∨
        (opts.hostsFile = some path ∧ strTruthy (some path) ∧
          (fs.openFile path = .osErr err ∨ fs.openFile path = .ioErr err)) →
        ∀ s, sessionCompute fs opts ≠ .session s) := by
  refine ⟨?_, ?_, ?_⟩
  · intro h
    simp [sessionCompute, h]
  · intro hpath htr hopen
    have hne : ¬ (¬ listTruthy opts.host ∧ ¬ strTruthy opts.hostsFile) := by
      intro h
      rw [hpath] at h
      exact h.2 htr
    rcases hopen with hos | hio
    · simp [sessionCompute, hne, hpath, htr, hos]
    · simp [sessionCompute, hne, hpath, htr, hio]
  · rintro (h | ⟨hpath, htr, hopen⟩) s
    · simp [sessionCompute, h]
    · have hne : ¬ (¬ listTruthy opts.host ∧ ¬ strTruthy opts.hostsFile) := by
        intro h
        rw [hpath] at h
        exact h.2 htr
      rcases hopen with hos | hio
      · simp [sessionCompute, hne, hpath, htr, hos]
      · simp [sessionCompute, hne, hpath, htr, hio]

theorem session_exits_without_hosts_witness :
    sessionCompute fsUnreadable ⟨[], Option.none, Option.none⟩ =
        .exit 1 missingHostsMsg
    ∧ sessionCompute fsUnreadable ⟨[], some "/missing/hosts", Option.none⟩ =
        .exit 1 (couldNotReadMsg "/missing/hosts" "No such file or directory")
    ∧ ∀ s, sessionCompute fsUnreadable ⟨[], Option.none, Option.none⟩ ≠ .session s := by
  refine ⟨?_, ?_, ?_⟩
  · exact (session_exits_without_hosts fsUnreadable ⟨[], Option.none, Option.none⟩
      "/missing/hosts" "No such file or directory").1 (by decide)
  · exact (session_exits_without_hosts fsUnreadable
      ⟨[], some "/missing/hosts", Option.none⟩
      "/missing/hosts" "No such file or directory").2.1 rfl (by decide) (Or.inr rfl)
  · exact (session_exits_without_hosts fsUnreadable ⟨[], Option.none, Option.none⟩
      "/missing/hosts" "No such file or directory").2.2 (Or.inl (by decide))

/-- C8: whenever `--hosts-file` names a file that opens successfully, the
`session` property raises `AttributeError` — `parse_hosts_file` receives
the path string, which has no `readlines` — and the handler, catching
only `OSError` and `IOError`, lets it propagate. -/
theorem session_hosts_file_raises (fs : FileSystem) (opts : Options)
    (path : String) (f : PyFile) :
    opts.hostsFile = some path → strTruthy (some path) →
    fs.openFile path = .ok f →
    sessionCompute fs opts =
      .raised (.attributeError "'str' object has no attribute 'readlines'") := by
  intro hpath htr hopen
  have hne : ¬ (¬ listTruthy opts.host ∧ ¬ strTruthy opts.hostsFile) := by
    intro h
    rw [hpath] at h
    exact h.2 htr
  simp [sessionCompute, hne, hpath, htr, hopen, parse_hosts_file, readlines,
    Except.bind]

theorem session_hosts_file_raises_witness :
    sessionCompute fsReadable ⟨[], some "/etc/lmi/hostlist", Option.none⟩ =
      .raised (.attributeError "'str' object has no attribute 'readlines'") :=
  session_hosts_file_raises fsReadable ⟨[], some "/etc/lmi/hostlist", Option.none⟩
    "/etc/lmi/hostlist" ⟨["alpha.example.com\n"]⟩ rfl (by decide) (by decide)

/-- C3 (bug evaluation): at a concrete invocation with a readable
`--hosts-file` and a `--user`, the `session` property raises
`AttributeError` instead of constructing a `Session` from the file's
hostnames — the path string, not the opened file object, is passed to
`parse_hosts_file`.  Without `--hosts-file` the property does construct
the `Session` the claim describes: the `--host` arguments in order,
each mapped to the `(user, '')` pair. -/
theorem session_hosts_file_bug_eval :
    sessionCompute fsReadable ⟨[], some "/etc/lmi/hostlist", some "root"⟩ =
      .raised (.attributeError "'str' object has no attribute 'readlines'")
    ∧ sessionCompute fsReadable ⟨["h1", "h2"], Option.none, some "root"⟩ =
        .session ⟨["h1", "h2"],
          some [("h1", ("root", "")), ("h2", ("root", ""))]⟩ := by
  exact ⟨by decide, by decide⟩

/-- C10 (bug evaluation): `parse_hosts_file` keeps one entry per line —
blank and whitespace-only lines become empty-string hostnames and an
empty file yields the empty list — yet when a hosts file is supplied the
`session` property raises `AttributeError` before any `Session` is
constructed, so no session with those hosts ever comes into being. -/
theorem parse_hosts_file_never_filters_eval :
    parse_hosts_file (.file ⟨["alpha\n", "\n", "   \n"]⟩) = .ok ["alpha", "", ""]
    ∧ parse_hosts_file (.file ⟨[]⟩) = .ok []
    ∧ sessionCompute fsBlankLines ⟨[], some "/etc/lmi/blanks", Option.none⟩ =
        .raised (.attributeError "'str' object has no attribute 'readlines'") := by
  refine ⟨rfl, rfl, by decide⟩

/-- C1: if the dispatched top-level command raises, `MetaCommand.run`
returns exit code 1, logging only the message when the exception is an
`LmiError` or tracing is disabled (an uninitialised config counting as
tracing enabled), and logging the full traceback otherwise; if nothing
is raised, `run` returns the command's result unchanged. -/
theorem run_classifies_exceptions (config : Option Config) (result : Int)
    (exc : PyExc) :
    MetaCommand.run config (.ok result) = (result, Option.none)
    ∧ (exc.isLmiError →
        MetaCommand.run config (.error exc) = (1, some (.logError exc.msg)))
    ∧ (effectiveTrace config = false →
        MetaCommand.run config (.error exc) = (1, some (.logError exc.msg)))
    ∧ (¬ exc.isLmiError ∧ effectiveTrace config = true →
        MetaCommand.run config (.error exc) = (1, some (.logException "fatal")))
    ∧ effectiveTrace Option.none = true
    ∧ (∀ c, effectiveTrace (some c) = c.trace) := by
  refine ⟨rfl, ?_, ?_, ?_, rfl, fun c => rfl⟩
  · intro h
    simp [MetaCommand.run, h]
  · intro h
    simp [MetaCommand.run, h]
  · rintro ⟨h1, h2⟩
    simp [MetaCommand.run, h1, h2]

theorem run_classifies_exceptions_witness :
    MetaCommand.run (some Configuration.defaults) (.ok 0) = (0, Option.none)
    ∧ MetaCommand.run (some { Configuration.defaults with trace := true })
        (.error (.lmiError "boom")) = (1, some (.logError "boom"))
    ∧ MetaCommand.run (some Configuration.defaults)
        (.error (.otherError "boom")) = (1, some (.logError "boom"))
    ∧ MetaCommand.run Option.none
        (.error (.otherError "boom")) = (1, some (.logException "fatal")) := by
  refine ⟨?_, ?_, ?_, ?_⟩
  · exact (run_classifies_exceptions (some Configuration.defaults) 0
      (.lmiError "boom")).1
  · exact (run_classifies_exceptions
      (some { Configuration.defaults with trace := true }) 0
      (.lmiError "boom")).2.1 (by decide)
  · exact (run_classifies_exceptions (some Configuration.defaults) 0
      (.otherError "boom")).2.2.1 (by decide)
  · exact (run_classifies_exceptions Option.none 0
      (.otherError "boom")).2.2.2.1 (by decide)

/-- C9: `command_manager` and `session` are memoized — a filled slot is
returned as-is on every later access (for the session, even under a
different file system or options, construction never re-runs), a
created object is stored in its slot, and the manager returned by
`command_manager` always has the `help` command registered. -/
theorem properties_memoized (st : MetaState) (fs : FileSystem) (opts : Options) :
    (∀ m, st.commandManagerSlot = some m → command_manager st = (m, st))
    ∧ (command_manager st).2.commandManagerSlot = some (command_manager st).1
    ∧ command_manager (command_manager st).2 =
        ((command_manager st).1, (command_manager st).2)
    ∧ ((∀ m, st.commandManagerSlot = some m → "help" ∈ m.commands) →
        "help" ∈ (command_manager st).1.commands)
    ∧ (∀ s, st.sessionSlot = some s → sessionProp fs opts st = (.session s, st))
    ∧ (∀ s, (sessionProp fs opts st).1 = .session s →
        ∀ fs' opts', sessionProp fs' opts' (sessionProp fs opts st).2 =
          (.session s, (sessionProp fs opts st).2)) := by
  obtain ⟨cm, ss⟩ := st
  refine ⟨?_, ?_, ?_, ?_, ?_, ?_⟩
  · rintro m rfl
    rfl
  · cases cm <;> rfl
  · cases cm <;> rfl
  · intro h
    cases cm with
    | none => simp [command_manager, CommandManager.add_command]
    | some m => exact h m rfl
  · rintro s rfl
    rfl
  · intro s hs fs' opts'
    cases ss with
    | some s0 =>
        simp only [sessionProp] at hs ⊢
        cases hs
        rfl
    | none =>
        rcases hcomp : sessionCompute fs opts with ⟨code, msg⟩ | ⟨e⟩ | ⟨s1⟩
        · simp only [sessionProp, hcomp] at hs
          cases hs
        · simp only [sessionProp, hcomp] at hs
          cases hs
        · simp only [sessionProp, hcomp] at hs ⊢
          cases hs
          rfl

theorem properties_memoized_witness :
    command_manager witnessState = (witnessManager, witnessState)
    ∧ "help" ∈ (command_manager witnessState).1.commands
    ∧ sessionProp fsReadable witnessOpts witnessState =
        (.session witnessSession, witnessState)
    ∧ sessionProp fsUnreadable ⟨[], Option.none, Option.none⟩
        (sessionProp fsReadable witnessOpts witnessState).2 =
        (.session witnessSession,
          (sessionProp fsReadable witnessOpts witnessState).2) := by
  have h := properties_memoized witnessState fsReadable witnessOpts
  refine ⟨h.1 witnessManager rfl, ?_, h.2.2.2.2.1 witnessSession rfl, ?_⟩
  · exact h.2.2.2.1 (fun m hm => by cases hm; decide)
  · exact h.2.2.2.2.2 witnessSession (by decide) fsUnreadable
      ⟨[], Option.none, Option.none⟩

/-- C7: in one invocation, the CLI flags are read first, then the
config singleton is populated, then log handlers are attached, then —
when a hosts file is given — the host list is parsed, then the session
is constructed, and only then does the subcommand run; in particular
session construction precedes the subcommand. -/
theorem pipeline_event_order (hostsFileGiven : Bool) :
    ((topLevelRunEvents hostsFileGiven).indexOf Event.readCliFlags <
        (topLevelRunEvents hostsFileGiven).indexOf Event.populateConfig)
    ∧ ((topLevelRunEvents hostsFileGiven).indexOf Event.populateConfig <
        (topLevelRunEvents hostsFileGiven).indexOf Event.attachLogHandlers)
    ∧ ((topLevelRunEvents hostsFileGiven).indexOf Event.attachLogHandlers <
        (topLevelRunEvents hostsFileGiven).indexOf Event.constructSession)
    ∧ ((topLevelRunEvents hostsFileGiven).indexOf Event.constructSession <
        (topLevelRunEvents hostsFileGiven).indexOf Event.runSubcommand)
    ∧ (hostsFileGiven = true →
        ((topLevelRunEvents hostsFileGiven).indexOf Event.attachLogHandlers <
            (topLevelRunEvents hostsFileGiven).indexOf Event.parseHostsFromFile)
        ∧ ((topLevelRunEvents hostsFileGiven).indexOf Event.parseHostsFromFile <
            (topLevelRunEvents hostsFileGiven).indexOf Event.constructSession)) := by
  cases hostsFileGiven <;> decide

theorem pipeline_event_order_witness :
    ((topLevelRunEvents true).indexOf Event.attachLogHandlers <
        (topLevelRunEvents true).indexOf Event.parseHostsFromFile)
    ∧ ((topLevelRunEvents true).indexOf Event.parseHostsFromFile <
        (topLevelRunEvents true).indexOf Event.constructSession) :=
  (pipeline_event_order true).2.2.2.2 rfl

theorem setupTail_eq (existing : Option Config) (cfPath : Option String)
    (d1 : OptDict) (tr q : Bool) (v : Nat)
    (htr : d1.get "--trace" = some (.bool tr))
    (hq : d1.get "--quiet" = some (.bool q))
    (hv : d1.get "-v" = some (.num v)) :
    setupTail existing cfPath d1 =
      (if q then
        { Configuration.get_instance existing cfPath with
            trace := tr, verbosity := OUTPUT_SILENT }
      else if 0 < v then
        { Configuration.get_instance existing cfPath with
            trace := tr, verbosity := (v : Int) }
      else
        { Configuration.get_instance existing cfPath with trace := tr },
      ((d1.del "--trace").del "--quiet").del "-v") := by
  have hq2 : (d1.del "--trace").get "--quiet" = some (.bool q) := by
    rw [OptDict.get_del_ne _ _ _ (by decide)]
    exact hq
  have hv2 : (d1.del "--trace").get "-v" = some (.num v) := by
    rw [OptDict.get_del_ne _ _ _ (by decide)]
    exact hv
  cases q with
  | true => simp [setupTail, OptDict.pop, htr, hq2, hv2, OptVal.truthy]
  | false =>
      rcases Nat.eq_zero_or_pos v with hv0 | hvpos
      · subst hv0
        simp [setupTail, OptDict.pop, htr, hq2, hv2, OptVal.truthy, OptVal.count]
      · have hne : v ≠ 0 := Nat.pos_iff_ne_zero.mp hvpos
        simp [setupTail, OptDict.pop, htr, hq2, hv2, OptVal.truthy, OptVal.count,
          hvpos, hne]

/-- C5: `setup` obtains the `Configuration` singleton (passing the
`--config-file` path as the user configuration file when given), sets
`config.trace` from `--trace`, sets `config.verbosity` to
`OUTPUT_SILENT` under `--quiet`, else to the `-v` count when positive,
and otherwise leaves verbosity unchanged; the stored remaining options
no longer contain the `--quiet` and `-v` keys. -/
theorem setup_spec (existing : Option Config) (options : OptDict)
    (tr q : Bool) (v : Nat)
    (htr : options.get "--trace" = some (.bool tr))
    (hq : options.get "--quiet" = some (.bool q))
    (hv : options.get "-v" = some (.num v)) :
    (setup existing options).1.trace = tr
    ∧ (q = true → (setup existing options).1.verbosity = OUTPUT_SILENT)
    ∧ (q = false → 0 < v → (setup existing options).1.verbosity = (v : Int))
    ∧ (q = false → v = 0 → ∀ c, existing = some c →
        (setup existing options).1.verbosity = c.verbosity)
    ∧ (q = false → v = 0 → existing = Option.none →
        (setup existing options).1.verbosity = Configuration.defaults.verbosity)
    ∧ (setup existing options).2.get "--quiet" = Option.none
    ∧ (setup existing options).2.get "-v" = Option.none
    ∧ (∀ c, existing = some c →
        (setup existing options).1.userConfigFilePath = c.userConfigFilePath)
    ∧ (existing = Option.none → ∀ cf, cf ≠ "" →
        options.get "--config-file" = some (.str cf) →
        (setup existing options).1.userConfigFilePath = some cf)
    ∧ (existing = Option.none → options.get "--config-file" = some OptVal.none →
        (setup existing options).1.userConfigFilePath = Option.none) := by
  by_cases hcf : (((options.get "--config-file").getD OptVal.none).truthy : Prop)
  case pos =>
    have htr1 : (options.del "--config-file").get "--trace" = some (.bool tr) := by
      rw [OptDict.get_del_ne _ _ _ (by decide)]
      exact htr
    have hq1 : (options.del "--config-file").get "--quiet" = some (.bool q) := by
      rw [OptDict.get_del_ne _ _ _ (by decide)]
      exact hq
    have hv1 : (options.del "--config-file").get "-v" = some (.num v) := by
      rw [OptDict.get_del_ne _ _ _ (by decide)]
      exact hv
    have hmain : setup existing options =
        setupTail existing
          (OptVal.pathStr ((options.get "--config-file").getD OptVal.none))
          (options.del "--config-file") := by
      simp [setup, OptDict.pop, hcf]
    rw [hmain, setupTail_eq existing _ _ tr q v htr1 hq1 hv1]
    refine ⟨?_, ?_, ?_, ?_, ?_, ?_, ?_, ?_, ?_, ?_⟩
    · split_ifs <;> rfl
    · rintro rfl
      simp
    · rintro rfl hvpos
      simp [hvpos, Nat.pos_iff_ne_zero.mp hvpos]
    · rintro rfl rfl c rfl
      simp [Configuration.get_instance]
    · rintro rfl rfl rfl
      simp [Configuration.get_instance]
    · rw [OptDict.get_del_ne _ _ _ (by decide), OptDict.get_del_self]
    · rw [OptDict.get_del_self]
    · rintro c rfl
      simp [Configuration.get_instance]
      split_ifs <;> rfl
    · rintro rfl cf hne hval
      rw [hval]
      simp [Configuration.get_instance, OptVal.pathStr]
      split_ifs <;> rfl
    · intro hex hval
      rw [hval] at hcf
      simp [OptVal.truthy] at hcf
  case neg =>
    have hmain : setup existing options =
        setupTail existing Option.none options := by
      simp [setup, hcf]
    rw [hmain, setupTail_eq existing _ _ tr q v htr hq hv]
    refine ⟨?_, ?_, ?_, ?_, ?_, ?_, ?_, ?_, ?_, ?_⟩
    · split_ifs <;> rfl
    · rintro rfl
      simp
    · rintro rfl hvpos
      simp [hvpos, Nat.pos_iff_ne_zero.mp hvpos]
    · rintro rfl rfl c rfl
      simp [Configuration.get_instance]
    · rintro rfl rfl rfl
      simp [Configuration.get_instance]
    · rw [OptDict.get_del_ne _ _ _ (by decide), OptDict.get_del_self]
    · rw [OptDict.get_del_self]
    · rintro c rfl
      simp [Configuration.get_instance]
      split_ifs <;> rfl
    · rintro rfl cf hne hval
      rw [hval] at hcf
      simp [OptVal.truthy, hne] at hcf
    · rintro rfl hval
      simp [Configuration.get_instance]
      split_ifs <;> rfl

theorem setup_spec_witness :
    (setup Option.none docoptExample).1.trace = true
    ∧ (setup Option.none docoptExample).1.verbosity = (2 : Int)
    ∧ (setup Option.none docoptExample).2.get "--quiet" = Option.none
    ∧ (setup Option.none docoptExample).2.get "-v" = Option.none
    ∧ (setup Option.none docoptExample).1.userConfigFilePath =
        some "/etc/lmi/custom.conf" := by
  have h := setup_spec Option.none docoptExample true false 2 rfl rfl rfl
  exact ⟨h.1, h.2.2.1 rfl (by decide), h.2.2.2.2.2.1, h.2.2.2.2.2.2.1,
    h.2.2.2.2.2.2.2.2.1 rfl "/etc/lmi/custom.conf" (by decide) rfl⟩

theorem eraseFold_replicate_null (n : Nat) (rest : List Handler) :
    List.foldl (fun hs h => hs.erase h)
      (List.replicate n Handler.null ++ rest) (List.replicate n Handler.null) =
      rest := by
  induction n with
  | zero => simp
  | succ k ih =>
      simp only [List.replicate_succ, List.cons_append, List.foldl_cons,
        List.erase_cons_head]
      exact ih

/-- C6: after `_configure_logging` completes, the root logger carries a
console `StreamHandler` on stderr, carries a `FileHandler` exactly when
`[Log] OutputFile` is set, has no `NullHandler` left, and its level is
the minimum of the configured logging level and the console handler's
level. -/
theorem configure_logging_spec (cfg : Config) (root : RootLogger)
    (L : Nat) (st : RootLogger) (silenced : Bool)
    (hnull : ∀ h ∈ root.handlers, h = Handler.null)
    (hlvl : loggingLevelAttr (pyUpper cfg.logging_level) = some L)
    (hrun : configure_logging cfg root = some (st, silenced)) :
    Handler.stream .stderr
        (consoleLevelFor cfg.verbosity
          (if strTruthy cfg.logOutputFile then logERROR else L))
        cfg.logConsoleFormat ∈ st.handlers
    ∧ ((∃ p lv f, Handler.file p lv f ∈ st.handlers) ↔ cfg.logOutputFile.isSome)
    ∧ (∀ h ∈ st.handlers, Handler.isNull h = false)
    ∧ st.level = min L
        (consoleLevelFor cfg.verbosity
          (if strTruthy cfg.logOutputFile then logERROR else L)) := by
  have hrep : root.handlers = List.replicate root.handlers.length Handler.null :=
    List.eq_replicate_of_mem hnull
  have hfilter : root.handlers.filter Handler.isNull = root.handlers :=
    List.filter_eq_self.mpr (fun a ha => by rw [hnull a ha]; rfl)
  rcases hofile : cfg.logOutputFile with _ | lf
  · have hcompute : configure_logging cfg root =
        some (⟨[Handler.stream .stderr (consoleLevelFor cfg.verbosity L)
            cfg.logConsoleFormat],
          min L (consoleLevelFor cfg.verbosity L)⟩, cfg.silent) := by
      simp only [configure_logging, hlvl, hofile, hfilter, strTruthy,
        Bool.false_eq_true, if_false]
      rw [hrep, eraseFold_replicate_null]
    rw [hcompute, Option.some_inj, Prod.ext_iff] at hrun
    obtain ⟨h1, h2⟩ := hrun
    dsimp only at h1 h2
    subst h1
    refine ⟨by simp [strTruthy], ?_, ?_, by simp [strTruthy]⟩
    · simp
    · intro h hh
      simp at hh
      rw [hh]
      rfl
  · have hcompute : configure_logging cfg root =
        some (⟨[Handler.file lf 0 cfg.logFileFormat,
          Handler.stream .stderr
            (consoleLevelFor cfg.verbosity
              (if strTruthy (some lf) then logERROR else L))
            cfg.logConsoleFormat],
          min L (consoleLevelFor cfg.verbosity
            (if strTruthy (some lf) then logERROR else L))⟩,
          cfg.silent) := by
      simp only [configure_logging, hlvl, hofile, hfilter]
      rw [hrep, List.append_assoc, eraseFold_replicate_null]
      rfl
    rw [hcompute, Option.some_inj, Prod.ext_iff] at hrun
    obtain ⟨h1, h2⟩ := hrun
    dsimp only at h1 h2
    subst h1
    refine ⟨by simp, ?_, ?_, rfl⟩
    · simp only [Option.isSome_some, iff_true]
      exact ⟨lf, 0, cfg.logFileFormat, by simp⟩
    · intro h hh
      simp at hh
      rcases hh with hh | hh <;> rw [hh] <;> rfl

theorem configure_logging_spec_witness :
    Handler.stream StreamDest.stderr
        (consoleLevelFor Configuration.defaults.verbosity
          (if strTruthy Configuration.defaults.logOutputFile then logERROR
           else logERROR)) Configuration.defaults.logConsoleFormat ∈
      rootLoggerAfter.handlers
    ∧ ((∃ p lv f, Handler.file p lv f ∈ rootLoggerAfter.handlers) ↔
        Configuration.defaults.logOutputFile.isSome)
    ∧ (∀ h ∈ rootLoggerAfter.handlers, Handler.isNull h = false)
    ∧ rootLoggerAfter.level = min logERROR
        (consoleLevelFor Configuration.defaults.verbosity
          (if strTruthy Configuration.defaults.logOutputFile then logERROR
           else logERROR)) :=
  configure_logging_spec Configuration.defaults rootLoggerStart logERROR
    rootLoggerAfter false (by decide) (by decide) (by decide)
